import Mathlib

/-!
Verification of the book-catalog core: title normalization, Levenshtein
similarity, the deduplication engine (two copies: `lib/storage.ts` and
`lib/agents/deduplication-agent.ts`), the OCR candidate extractor
(`lib/agents/ocr-agent.ts`) and the genre extractor (`lib/genre-tagger.ts`).

Strings are modelled as `List Char` (`Str`).  JavaScript numbers are
modelled as `ℚ` (all values appearing in the decision procedures are exactly
representable small rationals, so the double rounding of the source never
changes a comparison on realistic inputs).  Character classes model the
JavaScript regex classes: `\w` is ASCII `[A-Za-z0-9_]`, `\s` is the
ECMAScript whitespace set, `toLowerCase`/`toUpperCase` are modelled on the
ASCII range.
-/

namespace BookApp

abbrev Str := List Char

def str (s : String) : Str := s.data

/-- ECMAScript `\s` class (also the set removed by `String.prototype.trim`). -/
def isSpaceJS (c : Char) : Bool :=
  c = ' ' || c = '\t' || c = '\n' || c = '\r' ||
  c.val = 11 || c.val = 12 || c.val = 160 || c.val = 5760 ||
  (8192 ≤ c.val && c.val ≤ 8202) || c.val = 8232 || c.val = 8233 ||
  c.val = 8239 || c.val = 8287 || c.val = 12288 || c.val = 65279

/-- ECMAScript `\w` class: `[A-Za-z0-9_]`. -/
def isWordCharJS (c : Char) : Bool :=
  ('a' ≤ c && c ≤ 'z') || ('A' ≤ c && c ≤ 'Z') || ('0' ≤ c && c ≤ '9') || c = '_'

def isAsciiLetter (c : Char) : Bool :=
  ('a' ≤ c && c ≤ 'z') || ('A' ≤ c && c ≤ 'Z')

def isDigitC (c : Char) : Bool :=
  '0' ≤ c && c ≤ '9'

/-- `String.prototype.toLowerCase`, on the ASCII range. -/
def jsToLower (c : Char) : Char :=
  if 65 ≤ c.toNat ∧ c.toNat ≤ 90 then Char.ofNat (c.toNat + 32) else c

/-- `String.prototype.toUpperCase`, on the ASCII range. -/
def jsToUpper (c : Char) : Char :=
  if 97 ≤ c.toNat ∧ c.toNat ≤ 122 then Char.ofNat (c.toNat - 32) else c

/-- `String.prototype.trim`: drop leading and trailing whitespace. -/
def trimStr (l : Str) : Str :=
  ((l.dropWhile isSpaceJS).reverse.dropWhile isSpaceJS).reverse

/-- `replace(/\s+/g, ' ')`: every maximal whitespace run becomes one `' '`. -/
def collapseWS : Str → Str
  | [] => []
  | [c] => if isSpaceJS c then [' '] else [c]
  | c₁ :: c₂ :: rest =>
    if isSpaceJS c₁ && isSpaceJS c₂ then collapseWS (c₂ :: rest)
    else (if isSpaceJS c₁ then ' ' else c₁) :: collapseWS (c₂ :: rest)

/-- `split(/\s+/)`: split on maximal whitespace runs; a leading (resp.
trailing) run produces a leading (resp. trailing) empty piece, and the empty
string yields `[""]`, as in JavaScript. -/
def splitWS : Str → List Str
  | [] => [[]]
  | [c] => if isSpaceJS c then [[], []] else [[c]]
  | c₁ :: c₂ :: rest =>
    match splitWS (c₂ :: rest) with
    | r :: rs =>
      if isSpaceJS c₁ then
        (if isSpaceJS c₂ then r :: rs else [] :: r :: rs)
      else (c₁ :: r) :: rs
    | [] => []

/-- `split(sep)` for a single-character separator (used with `'\n'`, `' '`). -/
def splitOnChar (sep : Char) : Str → List Str
  | [] => [[]]
  | c :: rest =>
    if c = sep then [] :: splitOnChar sep rest
    else
      match splitOnChar sep rest with
      | r :: rs => (c :: r) :: rs
      | [] => [[c]]

/-- `a.startsWith(b)` (also used for anchored regex prefixes). -/
def strStartsWith : Str → Str → Bool
  | _, [] => true
  | [], _ :: _ => false
  | c :: s, d :: p => c = d && strStartsWith s p

/-- `a.includes(b)`. -/
def strContains : Str → Str → Bool
  | [], p => strStartsWith [] p
  | s@(_ :: s'), p => strStartsWith s p || strContains s' p

/-- `Set.prototype.add` on an insertion-ordered list of strings. -/
def setAdd (acc : List Str) (x : Str) : List Str :=
  if x ∈ acc then acc else acc ++ [x]

/-- `filter((x, i, self) => self.indexOf(x) === i)`: keep first occurrences. -/
def dedupIdx : List Str → List Str :=
  go []
where
  go (seen : List Str) : List Str → List Str
    | [] => []
    | x :: xs => if x ∈ seen then go (seen ++ [x]) xs else x :: go (seen ++ [x]) xs

/-- `Math.ceil(m * 0.7)` for a natural number `m`. -/
def ceil7over10 (m : Nat) : Nat := (7 * m + 9) / 10

/-- One inner iteration (`j = 1 .. str1.length`) of the Levenshtein matrix
fill: given the current character `c₂ = str2[i-1]`, the remaining characters
of `str1`, the tail of the previous row starting at `matrix[i-1][j-1]`, and
the entry `matrix[i][j-1]` just computed, produce `matrix[i][j..]`. -/
def rowStep (c₂ : Char) : Str → List Nat → Nat → List Nat
  | [], _, _ => []
  | _ :: _, [], _ => []
  | x :: xs, p :: ps, left =>
    let v := if x = c₂ then p else Nat.min (Nat.min (p + 1) (left + 1)) (ps.headD 0 + 1)
    v :: rowStep c₂ xs ps v

/-- The outer loop (`i = 1 .. str2.length`) of the matrix fill: `i` is the
number of rows already produced, `row` the last produced row. -/
def levRowsAux (str1 : Str) : Str → Nat → List Nat → List Nat
  | [], _, row => row
  | c :: cs, i, row => levRowsAux str1 cs (i + 1) ((i + 1) :: rowStep c str1 row (i + 1))

/-- `Book` record from `lib/storage.ts`. -/
structure Book where
  id : Str
  title : Str
  addedAt : Str
  sourceImage : Option Str
deriving DecidableEq, Repr

namespace Storage

/-- `normalizeTitle` from `lib/storage.ts` (lines 32-38): lowercase, trim,
strip `[^\w\s]`, collapse whitespace runs. -/
def normalizeTitle (title : Str) : Str :=
  collapseWS ((trimStr (title.map jsToLower)).filter fun c => isWordCharJS c || isSpaceJS c)

/-- `levenshteinDistance` from `lib/storage.ts` (lines 108-134): the
dynamic-programming matrix, row by row; the result is
`matrix[str2.length][str1.length]`. -/
def levenshteinDistance (str1 str2 : Str) : Nat :=
  (levRowsAux str1 str2 0 (List.range (str1.length + 1))).getD str1.length 0

/-- `calculateSimilarity` from `lib/storage.ts` (lines 98-106). -/
def calculateSimilarity (str1 str2 : Str) : ℚ :=
  let longer := if str1.length > str2.length then str1 else str2
  let shorter := if str1.length > str2.length then str2 else str1
  if longer.length = 0 then 1
  else mkRat ((longer.length : Int) - (levenshteinDistance longer shorter : Int)) longer.length

/-- The per-existing-book test inside `isDuplicate`'s `some` callback
(`lib/storage.ts` lines 46-94). -/
def dupCheck (normalizedNew : Str) (book : Book) : Bool :=
  let normalizedExisting := normalizeTitle book.title
  if normalizedNew = normalizedExisting then true
  else
    let contain : Bool :=
      if decide (10 < normalizedNew.length) && decide (10 < normalizedExisting.length) then
        let wordsNew := splitWS normalizedNew
        let wordsExisting := splitWS normalizedExisting
        let overlapOk : Bool :=
          if decide (2 < wordsNew.length) && decide (2 < wordsExisting.length) then
            let overlap := (wordsNew.filter fun w =>
              wordsExisting.any fun ew => strContains ew w || strContains w ew).length
            decide (ceil7over10 (Nat.min wordsNew.length wordsExisting.length) ≤ overlap)
          else false
        let substrOk : Bool :=
          if strContains normalizedNew normalizedExisting ||
              strContains normalizedExisting normalizedNew then
            decide (15 < Nat.min normalizedNew.length normalizedExisting.length)
          else false
        overlapOk || substrOk
      else false
    if contain then true
    else
      let similarity := calculateSimilarity normalizedNew normalizedExisting
      if mkRat 85 100 < similarity then true
      else if decide (normalizedNew.length < 30) && decide (normalizedExisting.length < 30) &&
          decide (mkRat 75 100 < similarity) then true
      else false

/-- `isDuplicate` from `lib/storage.ts` (lines 41-95). -/
def isDuplicate (newTitle : Str) (existingBooks : List Book) : Bool :=
  let normalizedNew := normalizeTitle newTitle
  if normalizedNew.length < 3 then false
  else existingBooks.any (dupCheck normalizedNew)

end Storage

namespace DedupAgent

/-- `normalizeTitle` from `lib/agents/deduplication-agent.ts` (lines 49-55). -/
def normalizeTitle (title : Str) : Str :=
  collapseWS ((trimStr (title.map jsToLower)).filter fun c => isWordCharJS c || isSpaceJS c)

/-- `levenshteinDistance` from `lib/agents/deduplication-agent.ts`
(lines 150-176). -/
def levenshteinDistance (str1 str2 : Str) : Nat :=
  (levRowsAux str1 str2 0 (List.range (str1.length + 1))).getD str1.length 0

/-- `calculateSimilarity` from `lib/agents/deduplication-agent.ts`
(lines 137-145). -/
def calculateSimilarity (str1 str2 : Str) : ℚ :=
  let longer := if str1.length > str2.length then str1 else str2
  let shorter := if str1.length > str2.length then str2 else str1
  if longer.length = 0 then 1
  else mkRat ((longer.length : Int) - (levenshteinDistance longer shorter : Int)) longer.length

/-- The per-existing-book test inside `isDuplicate`'s `some` callback
(`lib/agents/deduplication-agent.ts` lines 65-110). -/
def dupCheck (normalizedNew : Str) (book : Book) : Bool :=
  let normalizedExisting := normalizeTitle book.title
  if normalizedNew = normalizedExisting then true
  else
    let contain : Bool :=
      if decide (10 < normalizedNew.length) && decide (10 < normalizedExisting.length) then
        let wordsNew := splitWS normalizedNew
        let wordsExisting := splitWS normalizedExisting
        let overlapOk : Bool :=
          if decide (2 < wordsNew.length) && decide (2 < wordsExisting.length) then
            let overlap := (wordsNew.filter fun w =>
              wordsExisting.any fun ew => strContains ew w || strContains w ew).length
            decide (ceil7over10 (Nat.min wordsNew.length wordsExisting.length) ≤ overlap)
          else false
        let substrOk : Bool :=
          if strContains normalizedNew normalizedExisting ||
              strContains normalizedExisting normalizedNew then
            decide (15 < Nat.min normalizedNew.length normalizedExisting.length)
          else false
        overlapOk || substrOk
      else false
    if contain then true
    else
      let similarity := calculateSimilarity normalizedNew normalizedExisting
      if mkRat 85 100 < similarity then true
      else if decide (normalizedNew.length < 30) && decide (normalizedExisting.length < 30) &&
          decide (mkRat 75 100 < similarity) then true
      else false

/-- `isDuplicate` from `lib/agents/deduplication-agent.ts` (lines 60-111). -/
def isDuplicate (newTitle : Str) (existingBooks : List Book) : Bool :=
  let normalizedNew := normalizeTitle newTitle
  if normalizedNew.length < 3 then false
  else existingBooks.any (dupCheck normalizedNew)

/-- `findMatch` from `lib/agents/deduplication-agent.ts` (lines 116-132):
`bestMatch` and `bestSimilarity` evolve together, and the final result is
returned only when a match was recorded and its similarity exceeds `0.75`. -/
def findMatch (newTitle : Str) (existingBooks : List Book) : Option (Book × ℚ) :=
  let normalizedNew := normalizeTitle newTitle
  let st := existingBooks.foldl
    (fun (st : Option (Book × ℚ) × ℚ) book =>
      let similarity := calculateSimilarity normalizedNew (normalizeTitle book.title)
      if st.2 < similarity then (some (book, similarity), similarity) else st)
    (none, 0)
  if st.1.isSome && decide (mkRat 75 100 < st.2) then st.1 else none

/-- `AgentContext` from `lib/agents/types.ts` (the fields beyond `userId` do
not influence the modelled code). -/
structure AgentContext where
  userId : Str
deriving DecidableEq, Repr

structure DeduplicationParams where
  newTitle : Str
  existingBooks : List Book
deriving DecidableEq, Repr

/-- `DeduplicationResult` from `lib/agents/types.ts`. -/
structure DeduplicationResult where
  isDuplicate : Bool
  similarity : Option ℚ
  matchedBook : Option Book
deriving DecidableEq, Repr

/-- `AgentResult` from `lib/agents/types.ts`, specialised to the two shapes
`BaseAgent.success` / `BaseAgent.error` actually produce. -/
inductive AgentResult (α : Type) where
  | success (data : α)
  | error (message : Str)
deriving DecidableEq, Repr

/-- `BaseAgent.validateContext` (`lib/agents/base-agent.ts` lines 40-45):
`!context.userId` is true exactly for the empty string. -/
def validateContext (context : AgentContext) : Bool :=
  !(context.userId = [])

/-- `DeduplicationAgent.execute` (`lib/agents/deduplication-agent.ts`
lines 12-44); the body never throws, so the `catch` arm is dead. -/
def execute (context : AgentContext) (params : DeduplicationParams) :
    AgentResult DeduplicationResult :=
  if !(validateContext context) then .error (str "Invalid context: userId required")
  else
    let d := isDuplicate params.newTitle params.existingBooks
    let result : DeduplicationResult :=
      if d then
        match findMatch params.newTitle params.existingBooks with
        | some matched => ⟨d, some matched.2, some matched.1⟩
        | none => ⟨d, none, none⟩
      else ⟨d, none, none⟩
    .success result

end DedupAgent

namespace OCRAgent

/-- The noise alternatives of
`/^(page|chapter|table of contents|index|copyright|isbn|©|®|™)/i`
(`lib/agents/ocr-agent.ts` line 82). -/
def noisePatterns : List Str :=
  [str "page", str "chapter", str "table of contents", str "index",
   str "copyright", str "isbn", str "©", str "®", str "™"]

/-- The case-insensitive anchored noise test of line 82. -/
def noiseTest (line : Str) : Bool :=
  noisePatterns.any fun p => strStartsWith (line.map jsToLower) p

/-- `/^(\d+|[ivxlcdm]+)$/i.test(line)` (line 87). -/
def pageNumberTest (line : Str) : Bool :=
  (decide (line ≠ []) && line.all isDigitC) ||
  (decide (line ≠ []) && line.all fun c =>
    (jsToLower c = 'i' || jsToLower c = 'v' || jsToLower c = 'x' || jsToLower c = 'l' ||
     jsToLower c = 'c' || jsToLower c = 'd' || jsToLower c = 'm'))

/-- `/^\d{1,2}[\/\-]\d{1,2}[\/\-]\d{2,4}$/.test(line)` (line 88). -/
def dateTest (line : Str) : Bool :=
  let s₁ := line.takeWhile isDigitC
  let r₁ := line.dropWhile isDigitC
  decide (1 ≤ s₁.length) && decide (s₁.length ≤ 2) &&
  match r₁ with
  | sep₁ :: r₂ =>
    (sep₁ = '/' || sep₁ = '-') &&
    (let s₂ := r₂.takeWhile isDigitC
     let r₃ := r₂.dropWhile isDigitC
     decide (1 ≤ s₂.length) && decide (s₂.length ≤ 2) &&
     match r₃ with
     | sep₂ :: r₄ =>
       (sep₂ = '/' || sep₂ = '-') &&
       (let s₃ := r₄.takeWhile isDigitC
        let r₅ := r₄.dropWhile isDigitC
        decide (2 ≤ s₃.length) && decide (s₃.length ≤ 4) && decide (r₅ = []))
     | [] => false)
  | [] => false

/-- `/^(isbn|issn)[\s:]*[\d\-x]+$/i.test(line)` (line 89). -/
def isbnTest (line : Str) : Bool :=
  let low := line.map jsToLower
  (strStartsWith low (str "isbn") || strStartsWith low (str "issn")) &&
  (let rest := (low.drop 4).dropWhile fun c => isSpaceJS c || c = ':'
   decide (rest ≠ []) && rest.all fun c => isDigitC c || c = '-' || c = 'x')

/-- The line filter of `extractBookTitles` (`lib/agents/ocr-agent.ts`
lines 73-102), one conjunct per source predicate, in source order. -/
def linePred (line : Str) : Bool :=
  let length := line.length
  let hasLetters := line.any isAsciiLetter
  let notAllCaps := decide (line ≠ line.map jsToUpper) || decide (length < 10)
  let notTooShort := decide (3 ≤ length)
  let notTooLong := decide (length < 200)
  let notMostlyNumbers := decide (2 * (line.filter isDigitC).length < length)
  let isNotCommonNoise := !(noiseTest line)
  let wordCount := (splitWS line).length
  let hasReasonableWordCount := decide (1 ≤ wordCount) && decide (wordCount ≤ 15)
  let notJustPunctuation :=
    (line.filter fun c => isWordCharJS c || isSpaceJS c).any isAsciiLetter
  let notPageNumber := !(pageNumberTest line)
  let notDate := !(dateTest line)
  let notISBN := !(isbnTest line)
  hasLetters && notAllCaps && notTooShort && notTooLong && notMostlyNumbers &&
  isNotCommonNoise && hasReasonableWordCount && notJustPunctuation &&
  notPageNumber && notDate && notISBN

/-- The clean-up map of lines 103-109: collapse whitespace, `|` → `I`, trim. -/
def cleanLine (line : Str) : Str :=
  trimStr ((collapseWS line).map fun c => if c = '|' then 'I' else c)

/-- Lines of the raw text after `split('\n')`, `trim`, and dropping empties
(`lib/agents/ocr-agent.ts` lines 66-69). -/
def trimmedLines (text : Str) : List Str :=
  ((splitOnChar '\n' text).map trimStr).filter fun line => 0 < line.length

/-- `extractBookTitles` (`lib/agents/ocr-agent.ts` lines 65-116). -/
def extractBookTitles (text : Str) : List Str :=
  dedupIdx (((trimmedLines text).filter linePred).map cleanLine)

end OCRAgent

namespace GenreTagger

/-- `GENRE_MAPPINGS` from `lib/genre-tagger.ts` (lines 26-61). -/
def GENRE_MAPPINGS : List (Str × Str) :=
  [(str "fiction", str "Fiction"),
   (str "nonfiction", str "Non-Fiction"),
   (str "science fiction", str "Science Fiction"),
   (str "fantasy", str "Fantasy"),
   (str "mystery", str "Mystery"),
   (str "thriller", str "Thriller"),
   (str "romance", str "Romance"),
   (str "horror", str "Horror"),
   (str "biography", str "Biography"),
   (str "autobiography", str "Autobiography"),
   (str "history", str "History"),
   (str "philosophy", str "Philosophy"),
   (str "psychology", str "Psychology"),
   (str "self-help", str "Self-Help"),
   (str "business", str "Business"),
   (str "economics", str "Economics"),
   (str "science", str "Science"),
   (str "technology", str "Technology"),
   (str "art", str "Art"),
   (str "poetry", str "Poetry"),
   (str "drama", str "Drama"),
   (str "comedy", str "Comedy"),
   (str "adventure", str "Adventure"),
   (str "crime", str "Crime"),
   (str "young adult", str "Young Adult"),
   (str "children", str "Children's"),
   (str "cooking", str "Cooking"),
   (str "travel", str "Travel"),
   (str "religion", str "Religion"),
   (str "spirituality", str "Spirituality"),
   (str "health", str "Health"),
   (str "fitness", str "Fitness"),
   (str "education", str "Education"),
   (str "reference", str "Reference")]

/-- `GENRE_MAPPINGS[lower]` as a plain map lookup. -/
def mapLookup (key : Str) : Option Str :=
  (GENRE_MAPPINGS.find? fun kv => kv.1 = key).map fun kv => kv.2

/-- Word-by-word Title-Casing: `genre.split(' ').map(word =>
word.charAt(0).toUpperCase() + word.slice(1).toLowerCase()).join(' ')`. -/
def titleCaseWords (genre : Str) : Str :=
  List.intercalate [' '] ((splitOnChar ' ' genre).map fun word =>
    match word with
    | [] => []
    | c :: cs => jsToUpper c :: cs.map jsToLower)

/-- `normalizeGenre` (`lib/genre-tagger.ts` lines 64-69). -/
def normalizeGenre (genre : Str) : Str :=
  let lower := trimStr (genre.map jsToLower)
  match mapLookup lower with
  | some v => v
  | none => titleCaseWords genre

/-- The acceptance test of `extractGenres`'s main loop
(`lib/genre-tagger.ts` lines 81-90); note the lookup key here is the
un-trimmed lowercase subject. -/
def acceptedSubject (subject : Str) : Bool :=
  let lower := subject.map jsToLower
  strContains lower (str "fiction") || strContains lower (str "nonfiction") ||
  strContains lower (str "novel") || strContains lower (str "story") ||
  strContains lower (str "tale") || (mapLookup lower).isSome ||
  GENRE_MAPPINGS.any fun kv => strContains lower kv.1

/-- `extractGenres` (`lib/genre-tagger.ts` lines 72-109). -/
def extractGenres (subjects : List Str) : List Str :=
  if subjects.length = 0 then []
  else
    let genres := subjects.foldl
      (fun acc subject =>
        if acceptedSubject subject then
          let normalized := normalizeGenre subject
          if decide (normalized ≠ []) && decide (0 < normalized.length) then setAdd acc normalized
          else acc
        else acc)
      []
    let genres :=
      if genres.length = 0 then
        (subjects.take 3).foldl
          (fun acc subject =>
            let normalized := normalizeGenre subject
            if decide (normalized ≠ []) && decide (normalized.length < 30) then
              setAdd acc normalized
            else acc)
          genres
      else genres
    genres.take 5

end GenreTagger

/-- Classic unit-cost Levenshtein edit distance (textbook recursion). -/
def lev : Str → Str → Nat
  | [], ys => ys.length
  | xs, [] => xs.length
  | x :: xs, y :: ys =>
    if x = y then lev xs ys
    else 1 + Nat.min (lev xs ys) (Nat.min (lev (x :: xs) ys) (lev xs (y :: ys)))
termination_by xs ys => xs.length + ys.length
decreasing_by all_goals simp_arith

/-- Proof scaffolding for the matrix fill: the row of classic distances
`lev A R, lev (x₁ :: A) R, lev (x₂ :: x₁ :: A) R, …` for `suf = x₁ :: x₂ :: …`,
where `A` is the (reversed) prefix of `str1` already consumed and `R` the
(reversed) prefix of `str2` already consumed. -/
def levChain (A R : Str) : Str → List Nat
  | [] => [lev A R]
  | x :: xs => lev A R :: levChain (x :: A) R xs

/-- Insertion-ordered deduplication (`Set` insertion followed by
`Array.from`), used to state the amended genre-fallback claim. -/
def insertionDedup (l : List Str) : List Str :=
  l.foldl setAdd []

/-- No two adjacent characters of a collapsed string are both whitespace. -/
def NoWSRun (x y : Char) : Prop := ¬(isSpaceJS x = true ∧ isSpaceJS y = true)

/-! ## Basic character lemmas -/

theorem char_toNat_ofNat_valid {n : Nat} (h : n < 55296) : (Char.ofNat n).toNat = n := by
  rw [Char.ofNat, dif_pos (Or.inl h)]
  rfl

theorem jsToLower_idem (c : Char) : jsToLower (jsToLower c) = jsToLower c := by
  by_cases h : 65 ≤ c.toNat ∧ c.toNat ≤ 90
  · have h1 : jsToLower c = Char.ofNat (c.toNat + 32) := by rw [jsToLower, if_pos h]
    have h2 : (Char.ofNat (c.toNat + 32)).toNat = c.toNat + 32 :=
      char_toNat_ofNat_valid (by omega)
    rw [h1, jsToLower, h2, if_neg (by omega)]
  · have h1 : jsToLower c = c := by rw [jsToLower, if_neg h]
    rw [h1, h1]

/-! ## C9: the two deduplication implementations agree -/

theorem storage_normalize_eq (t : Str) :
    Storage.normalizeTitle t = DedupAgent.normalizeTitle t := rfl

/-- C9: the module-level deduplication code of `lib/storage.ts` and the
private methods of `DeduplicationAgent` are extensionally equal: the two
`normalizeTitle`, `levenshteinDistance`, `calculateSimilarity` and
`isDuplicate` functions agree on all inputs. -/
theorem c9_storage_agent_extensionally_equal :
    (∀ t, Storage.normalizeTitle t = DedupAgent.normalizeTitle t) ∧
    (∀ a b, Storage.levenshteinDistance a b = DedupAgent.levenshteinDistance a b) ∧
    (∀ a b, Storage.calculateSimilarity a b = DedupAgent.calculateSimilarity a b) ∧
    (∀ t books, Storage.isDuplicate t books = DedupAgent.isDuplicate t books) :=
  ⟨fun _ => rfl, fun _ _ => rfl, fun _ _ => rfl, fun _ _ => rfl⟩

/-! ## C1: the article-dropping example -/

/-- C1 (code bug): both implementations return `false` on
`isDuplicate("The Great Gatsby", [Great Gatsby])`, against the claim, the
spec's test property, and the source's own comment ("This handles cases like
The Great Gatsby vs Great Gatsby"): the word-overlap rule needs more than two
words on both sides, the substring rule needs the shorter normalized title to
exceed 15 characters (it has 12), and the similarity is exactly 0.75, which
is not strictly greater than the 0.75 threshold. -/
theorem c1_gatsby_not_flagged :
    Storage.isDuplicate (str "The Great Gatsby")
      [⟨str "1", str "Great Gatsby", str "2024", none⟩] = false ∧
    DedupAgent.isDuplicate (str "The Great Gatsby")
      [⟨str "1", str "Great Gatsby", str "2024", none⟩] = false := by
  constructor <;> decide

/-! ## C4: trivial reject for short normalized titles -/

/-- C4: a title whose normalized form has fewer than 3 characters is never
reported as a duplicate, whatever the existing list contains. -/
theorem c4_trivial_reject (t : Str) (books : List Book)
    (h : (DedupAgent.normalizeTitle t).length < 3) :
    DedupAgent.isDuplicate t books = false := by
  simp [DedupAgent.isDuplicate, h]

theorem c4_trivial_reject_witness :
    ((DedupAgent.normalizeTitle (str "!!")).length < 3) ∧
    DedupAgent.isDuplicate (str "!!")
      [⟨str "1", str "Dune", str "2024", none⟩] = false :=
  ⟨by decide, c4_trivial_reject _ _ (by decide)⟩

/-! ## C5: an exact repeat of an existing title is a duplicate -/

/-- C5: whenever the normalized new title has length at least 3 and the
existing list contains a record whose title is exactly the new title, the
exact-match rule fires and `isDuplicate` returns `true`. -/
theorem c5_self_duplicate (t : Str) (books : List Book) (b : Book)
    (hmem : b ∈ books) (htitle : b.title = t)
    (hlen : 3 ≤ (DedupAgent.normalizeTitle t).length) :
    DedupAgent.isDuplicate t books = true := by
  simp only [DedupAgent.isDuplicate, if_neg (by omega : ¬(DedupAgent.normalizeTitle t).length < 3)]
  refine List.any_eq_true.mpr ⟨b, hmem, ?_⟩
  simp [DedupAgent.dupCheck, htitle]

theorem c5_self_duplicate_witness :
    (3 ≤ (DedupAgent.normalizeTitle (str "Dune")).length) ∧
    DedupAgent.isDuplicate (str "Dune")
      [⟨str "1", str "Dune", str "2024", none⟩] = true :=
  ⟨by decide,
   c5_self_duplicate _ _ ⟨str "1", str "Dune", str "2024", none⟩
     (by decide) rfl (by decide)⟩

/-! ## C2: normalization and idempotence -/

theorem collapseWS_mem : ∀ (l : Str) (c : Char), c ∈ collapseWS l →
    c = ' ' ∨ (c ∈ l ∧ isSpaceJS c = false)
  | [], c, h => by simp [collapseWS] at h
  | [a], c, h => by
    by_cases ha : isSpaceJS a = true
    · simp only [collapseWS, if_pos ha, List.mem_singleton] at h
      exact Or.inl h
    · simp only [collapseWS, if_neg ha, List.mem_singleton] at h
      exact Or.inr ⟨by simp [h], by simp [h, ha]⟩
  | a :: b :: rest, c, h => by
    by_cases hab : (isSpaceJS a && isSpaceJS b) = true
    · simp only [collapseWS, if_pos hab] at h
      rcases collapseWS_mem (b :: rest) c h with h' | h'
      · exact Or.inl h'
      · exact Or.inr ⟨List.mem_cons_of_mem a h'.1, h'.2⟩
    · simp only [collapseWS, if_neg hab, List.mem_cons] at h
      rcases h with h' | h'
      · by_cases hsa : isSpaceJS a = true
        · rw [if_pos hsa] at h'
          exact Or.inl h'
        · rw [if_neg hsa] at h'
          exact Or.inr ⟨by simp [h'], by simp [h', hsa]⟩
      · rcases collapseWS_mem (b :: rest) c h' with h'' | h''
        · exact Or.inl h''
        · exact Or.inr ⟨List.mem_cons_of_mem a h''.1, h''.2⟩

theorem collapseWS_head : ∀ (a : Char) (l : Str),
    ∃ t, collapseWS (a :: l) = (if isSpaceJS a then ' ' else a) :: t
  | a, [] => ⟨[], by by_cases h : isSpaceJS a <;> simp [collapseWS, h]⟩
  | a, b :: rest => by
    by_cases hab : (isSpaceJS a && isSpaceJS b) = true
    · obtain ⟨t, ht⟩ := collapseWS_head b rest
      obtain ⟨ha, hb⟩ : isSpaceJS a = true ∧ isSpaceJS b = true := by simpa using hab
      refine ⟨t, ?_⟩
      simp only [collapseWS, if_pos hab, ht, if_pos ha, if_pos hb]
    · exact ⟨collapseWS (b :: rest), by simp only [collapseWS, if_neg hab]⟩

theorem collapseWS_chain : ∀ (l : Str), List.Chain' NoWSRun (collapseWS l)
  | [] => by simp [collapseWS]
  | [a] => by by_cases h : isSpaceJS a <;> simp [collapseWS, h]
  | a :: b :: rest => by
    by_cases hab : (isSpaceJS a && isSpaceJS b) = true
    · simpa only [collapseWS, if_pos hab] using collapseWS_chain (b :: rest)
    · rw [show collapseWS (a :: b :: rest) =
        (if isSpaceJS a then ' ' else a) :: collapseWS (b :: rest) by
          simp only [collapseWS, if_neg hab]]
      obtain ⟨t, ht⟩ := collapseWS_head b rest
      have hch := collapseWS_chain (b :: rest)
      rw [ht] at hch ⊢
      refine List.chain'_cons.mpr ⟨?_, hch⟩
      have hnot : ¬(isSpaceJS a = true ∧ isSpaceJS b = true) := by
        intro hcon
        exact hab (by simp [hcon.1, hcon.2])
      by_cases hsa : isSpaceJS a = true <;> by_cases hsb : isSpaceJS b = true <;>
        simp [NoWSRun, hsa, hsb] at hnot ⊢

theorem collapseWS_eq_self : ∀ (l : Str),
    (∀ c ∈ l, isSpaceJS c = true → c = ' ') → List.Chain' NoWSRun l → collapseWS l = l
  | [], _, _ => by simp [collapseWS]
  | [a], h, _ => by
    by_cases hsa : isSpaceJS a = true
    · have := h a (List.mem_singleton_self a) hsa
      simp [collapseWS, hsa, this]
    · simp [collapseWS, hsa]
  | a :: b :: rest, h, hch => by
    have hnot : NoWSRun a b := (List.chain'_cons.mp hch).1
    have hab : (isSpaceJS a && isSpaceJS b) = false := by
      cases hsa : isSpaceJS a <;> cases hsb : isSpaceJS b <;>
        simp_all [NoWSRun]
    rw [show collapseWS (a :: b :: rest) =
        (if isSpaceJS a then ' ' else a) :: collapseWS (b :: rest) from by
      simp only [collapseWS]
      rw [if_neg (by simp [hab])]]
    have htail : collapseWS (b :: rest) = b :: rest :=
      collapseWS_eq_self (b :: rest)
        (fun c hc hsp => h c (List.mem_cons_of_mem a hc) hsp)
        (List.chain'_cons.mp hch).2
    rw [htail]
    by_cases hsa : isSpaceJS a = true
    · rw [if_pos hsa, h a (List.mem_cons_self a _) hsa]
    · rw [if_neg hsa]

theorem chain_trimStr {l : Str} (h : List.Chain' NoWSRun l) :
    List.Chain' NoWSRun (trimStr l) := by
  have hswap : ∀ (m : Str), List.Chain' NoWSRun m → List.Chain' NoWSRun m.reverse := by
    intro m hm
    rw [List.chain'_reverse]
    exact List.Chain'.imp (fun a b hab hc => hab ⟨hc.2, hc.1⟩) hm
  have h1 : List.Chain' NoWSRun (l.dropWhile isSpaceJS) :=
    List.Chain'.suffix h (List.dropWhile_suffix _)
  have h2 := hswap _ h1
  have h3 : List.Chain' NoWSRun ((l.dropWhile isSpaceJS).reverse.dropWhile isSpaceJS) :=
    List.Chain'.suffix h2 (List.dropWhile_suffix _)
  exact hswap _ h3

theorem trimStr_within (l : Str) : trimStr l <:+: l := by
  have h1 : l.dropWhile isSpaceJS <:+ l := List.dropWhile_suffix _
  have h2 : (l.dropWhile isSpaceJS).reverse.dropWhile isSpaceJS <:+
      (l.dropWhile isSpaceJS).reverse := List.dropWhile_suffix _
  have h3 : trimStr l <+: l.dropWhile isSpaceJS := by
    have := List.reverse_prefix.mpr h2
    simpa [trimStr] using this
  exact h3.isInfix.trans h1.isInfix

/-- Every character of a normalized title is fixed by lowercasing, is a word
character or space, and if whitespace it is a plain `' '`. -/
theorem normalizeTitle_chars (s : Str) :
    ∀ c ∈ DedupAgent.normalizeTitle s,
      jsToLower c = c ∧ (isWordCharJS c || isSpaceJS c) = true ∧
      (isSpaceJS c = true → c = ' ') := by
  intro c hc
  rcases collapseWS_mem _ c hc with h | ⟨hmem, hsp⟩
  · subst h
    refine ⟨by decide, by decide, fun _ => rfl⟩
  · have hP := List.of_mem_filter hmem
    have hmem' : c ∈ trimStr ((s.map jsToLower)) :=
      List.mem_of_mem_filter hmem
    have hmem'' : c ∈ s.map jsToLower := (trimStr_within _).subset hmem'
    obtain ⟨a, _, ha⟩ := List.mem_map.mp hmem''
    refine ⟨?_, hP, fun hcon => absurd hcon (by simp [hsp])⟩
    rw [← ha, jsToLower_idem]

/-- C2 (amended): normalizing twice equals trimming the normalized string;
idempotence holds exactly when normalization does not leave residual
leading/trailing whitespace (the source trims before stripping punctuation,
so stripping can expose a space at either end). -/
theorem c2_normalize_idem_up_to_trim (s : Str) :
    DedupAgent.normalizeTitle (DedupAgent.normalizeTitle s) =
      trimStr (DedupAgent.normalizeTitle s) := by
  have hchars := normalizeTitle_chars s
  set u := DedupAgent.normalizeTitle s with hu
  have hmap : u.map jsToLower = u := by
    have : u.map jsToLower = u.map id := List.map_congr_left fun a ha => (hchars a ha).1
    simpa using this
  have hchain : List.Chain' NoWSRun u := by
    rw [hu]
    exact collapseWS_chain _
  have hfil : (trimStr u).filter (fun c => isWordCharJS c || isSpaceJS c) = trimStr u :=
    List.filter_eq_self.mpr fun a ha => (hchars a ((trimStr_within u).subset ha)).2.1
  have hcol : collapseWS (trimStr u) = trimStr u :=
    collapseWS_eq_self _
      (fun c hc hsp => (hchars c ((trimStr_within u).subset hc)).2.2 hsp)
      (chain_trimStr hchain)
  calc DedupAgent.normalizeTitle u
      = collapseWS ((trimStr (u.map jsToLower)).filter
          fun c => isWordCharJS c || isSpaceJS c) := rfl
    _ = collapseWS ((trimStr u).filter fun c => isWordCharJS c || isSpaceJS c) := by
          rw [hmap]
    _ = collapseWS (trimStr u) := by rw [hfil]
    _ = trimStr u := hcol

/-- C2 (counterexample): `normalize("! a")` is `" a"`, whose second
normalization is `"a"` — the claimed idempotence fails. -/
theorem c2_counterexample :
    DedupAgent.normalizeTitle (DedupAgent.normalizeTitle (str "! a")) ≠
      DedupAgent.normalizeTitle (str "! a") := by decide

/-! ## C6: findMatch returns the best match above the flat 0.75 threshold -/

theorem findMatch_fold_inv (nn : Str) :
    ∀ (l seen : List Book) (st : Option (Book × ℚ) × ℚ),
    ((st.1 = none ∧ st.2 = 0 ∧
        ∀ b ∈ seen, DedupAgent.calculateSimilarity nn (DedupAgent.normalizeTitle b.title) ≤ 0) ∨
      (∃ bk s, st.1 = some (bk, s) ∧ st.2 = s ∧ bk ∈ seen ∧
        DedupAgent.calculateSimilarity nn (DedupAgent.normalizeTitle bk.title) = s ∧
        ∀ b ∈ seen, DedupAgent.calculateSimilarity nn (DedupAgent.normalizeTitle b.title) ≤ s)) →
    (let st' := l.foldl
      (fun (st : Option (Book × ℚ) × ℚ) book =>
        let similarity :=
          DedupAgent.calculateSimilarity nn (DedupAgent.normalizeTitle book.title)
        if st.2 < similarity then (some (book, similarity), similarity) else st) st
    (st'.1 = none ∧ st'.2 = 0 ∧
        ∀ b ∈ seen ++ l, DedupAgent.calculateSimilarity nn (DedupAgent.normalizeTitle b.title) ≤ 0) ∨
      (∃ bk s, st'.1 = some (bk, s) ∧ st'.2 = s ∧ bk ∈ seen ++ l ∧
        DedupAgent.calculateSimilarity nn (DedupAgent.normalizeTitle bk.title) = s ∧
        ∀ b ∈ seen ++ l,
          DedupAgent.calculateSimilarity nn (DedupAgent.normalizeTitle b.title) ≤ s))
  | [], seen, st, hinv => by simpa using hinv
  | bk :: l, seen, st, hinv => by
    rw [List.foldl_cons]
    have hassoc : (seen ++ [bk]) ++ l = seen ++ (bk :: l) := by simp
    have hnext := findMatch_fold_inv nn l (seen ++ [bk])
      (let similarity :=
          DedupAgent.calculateSimilarity nn (DedupAgent.normalizeTitle bk.title)
       if st.2 < similarity then (some (bk, similarity), similarity) else st) ?_
    · rw [hassoc] at hnext
      exact hnext
    · set sims := DedupAgent.calculateSimilarity nn (DedupAgent.normalizeTitle bk.title)
        with hsims
      by_cases hlt : st.2 < sims
      · refine Or.inr ⟨bk, sims, ?_⟩
        simp only [if_pos hlt]
        refine ⟨by simp, by simp, by simp, by simp, ?_⟩
        intro b hb
        rcases List.mem_append.mp hb with hb' | hb'
        · rcases hinv with ⟨_, h0, hall⟩ | ⟨bk', s', _, hs', _, _, hall⟩
          · exact le_of_lt (lt_of_le_of_lt (h0 ▸ hall b hb') hlt)
          · exact le_of_lt (lt_of_le_of_lt (hs' ▸ hall b hb') hlt)
        · rw [List.mem_singleton.mp hb']
      · simp only [if_neg hlt]
        have hble : sims ≤ st.2 := le_of_not_lt hlt
        rcases hinv with ⟨h1, h2, hall⟩ | ⟨bk', s', h1, h2, hmem, hsim, hall⟩
        · refine Or.inl ⟨h1, h2, ?_⟩
          intro b hb
          rcases List.mem_append.mp hb with hb' | hb'
          · exact hall b hb'
          · rw [List.mem_singleton.mp hb']
            exact h2 ▸ hble
        · refine Or.inr ⟨bk', s', h1, h2, List.mem_append_left _ hmem, hsim, ?_⟩
          intro b hb
          rcases List.mem_append.mp hb with hb' | hb'
          · exact hall b hb'
          · rw [List.mem_singleton.mp hb']
            exact h2 ▸ hble

/-- Full behaviour of `findMatch`: when it returns a record, that record is
an existing entry of maximal similarity, returned with that similarity, and
the similarity exceeds `0.75`; when it returns nothing, no entry's similarity
exceeds `0.75`. -/
theorem findMatch_spec (newTitle : Str) (books : List Book) :
    match DedupAgent.findMatch newTitle books with
    | some m => m.1 ∈ books ∧
        DedupAgent.calculateSimilarity (DedupAgent.normalizeTitle newTitle)
          (DedupAgent.normalizeTitle m.1.title) = m.2 ∧
        mkRat 75 100 < m.2 ∧
        ∀ b ∈ books,
          DedupAgent.calculateSimilarity (DedupAgent.normalizeTitle newTitle)
            (DedupAgent.normalizeTitle b.title) ≤ m.2
    | none => ∀ b ∈ books,
        DedupAgent.calculateSimilarity (DedupAgent.normalizeTitle newTitle)
          (DedupAgent.normalizeTitle b.title) ≤ mkRat 75 100 := by
  have hinv := findMatch_fold_inv (DedupAgent.normalizeTitle newTitle) books [] (none, 0)
    (Or.inl ⟨rfl, rfl, by simp⟩)
  simp only [List.nil_append] at hinv
  have h075 : (0 : ℚ) ≤ mkRat 75 100 := by decide
  rcases hinv with ⟨h1, _, hall⟩ | ⟨bk, s, h1, h2, hmem, hsim, hall⟩
  · have : DedupAgent.findMatch newTitle books = none := by
      simp only [DedupAgent.findMatch, h1]
      simp
    rw [this]
    exact fun b hb => le_trans (hall b hb) h075
  · by_cases h75 : mkRat 75 100 < s
    · have : DedupAgent.findMatch newTitle books = some (bk, s) := by
        simp only [DedupAgent.findMatch, h1, h2]
        simp [h75]
      rw [this]
      exact ⟨hmem, hsim, h75, hall⟩
    · have : DedupAgent.findMatch newTitle books = none := by
        simp only [DedupAgent.findMatch, h1, h2]
        simp [h75]
      rw [this]
      exact fun b hb => le_trans (hall b hb) (le_of_not_lt h75)

/-- C6: `findMatch` scans all entries, computes the similarity of the
normalized new title against each normalized existing title, and returns an
entry of maximal similarity together with that similarity exactly when the
maximum exceeds 0.75; otherwise it reports no match. -/
theorem c6_findMatch_threshold (newTitle : Str) (books : List Book) :
    match DedupAgent.findMatch newTitle books with
    | some m => m.1 ∈ books ∧
        DedupAgent.calculateSimilarity (DedupAgent.normalizeTitle newTitle)
          (DedupAgent.normalizeTitle m.1.title) = m.2 ∧
        mkRat 75 100 < m.2 ∧
        ∀ b ∈ books,
          DedupAgent.calculateSimilarity (DedupAgent.normalizeTitle newTitle)
            (DedupAgent.normalizeTitle b.title) ≤ m.2
    | none => ∀ b ∈ books,
        DedupAgent.calculateSimilarity (DedupAgent.normalizeTitle newTitle)
          (DedupAgent.normalizeTitle b.title) ≤ mkRat 75 100 :=
  findMatch_spec newTitle books

/-! ## C10: a duplicate verdict with no identified match -/

theorem findMatch_none_of_all_le (newTitle : Str) (books : List Book)
    (h : ∀ b ∈ books,
      DedupAgent.calculateSimilarity (DedupAgent.normalizeTitle newTitle)
        (DedupAgent.normalizeTitle b.title) ≤ mkRat 75 100) :
    DedupAgent.findMatch newTitle books = none := by
  have hs := findMatch_spec newTitle books
  cases hfm : DedupAgent.findMatch newTitle books with
  | none => rfl
  | some m =>
    rw [hfm] at hs
    have hle : m.2 ≤ mkRat 75 100 := hs.2.1 ▸ h m.1 hs.1
    exact absurd hs.2.2.1 (not_lt_of_le hle)

/-- C10: when the duplicate check succeeds but no existing entry's similarity
exceeds 0.75 (so `findMatch` reports nothing), `execute` returns a successful
`DeduplicationResult` with `isDuplicate = true` and both `matchedBook` and
`similarity` absent. -/
theorem c10_execute_duplicate_without_match (context : DedupAgent.AgentContext)
    (params : DedupAgent.DeduplicationParams)
    (hctx : DedupAgent.validateContext context = true)
    (hdup : DedupAgent.isDuplicate params.newTitle params.existingBooks = true)
    (hsim : ∀ b ∈ params.existingBooks,
      DedupAgent.calculateSimilarity (DedupAgent.normalizeTitle params.newTitle)
        (DedupAgent.normalizeTitle b.title) ≤ mkRat 75 100) :
    DedupAgent.execute context params =
      DedupAgent.AgentResult.success ⟨true, none, none⟩ := by
  have hfm := findMatch_none_of_all_le params.newTitle params.existingBooks hsim
  simp [DedupAgent.execute, hctx, hdup, hfm]

theorem c10_execute_duplicate_without_match_witness :
    (DedupAgent.validateContext ⟨str "user1"⟩ = true) ∧
    (DedupAgent.isDuplicate (str "aaaaaaaaaaaaaaaaa")
      [⟨str "1", str "aaaaaaaaaaaaaaaaaaaaaaaa", str "2024", none⟩] = true) ∧
    (∀ b ∈ [(⟨str "1", str "aaaaaaaaaaaaaaaaaaaaaaaa", str "2024", none⟩ : Book)],
      DedupAgent.calculateSimilarity (DedupAgent.normalizeTitle (str "aaaaaaaaaaaaaaaaa"))
        (DedupAgent.normalizeTitle b.title) ≤ mkRat 75 100) ∧
    DedupAgent.execute ⟨str "user1"⟩
      ⟨str "aaaaaaaaaaaaaaaaa", [⟨str "1", str "aaaaaaaaaaaaaaaaaaaaaaaa", str "2024", none⟩]⟩ =
      DedupAgent.AgentResult.success ⟨true, none, none⟩ :=
  ⟨by decide, by decide, by decide,
   c10_execute_duplicate_without_match _ _ (by decide) (by decide) (by decide)⟩

/-! ## C7: the OCR noise-prefix filter -/

theorem dedupIdx_go_subset :
    ∀ (l seen : List Str) (x : Str), x ∈ dedupIdx.go seen l → x ∈ l
  | [], _, x, h => by simp [dedupIdx.go] at h
  | y :: ys, seen, x, h => by
    by_cases hy : y ∈ seen
    · simp only [dedupIdx.go, if_pos hy] at h
      exact List.mem_cons_of_mem y (dedupIdx_go_subset ys (seen ++ [y]) x h)
    · simp only [dedupIdx.go, if_neg hy, List.mem_cons] at h
      rcases h with h | h
      · exact h ▸ List.mem_cons_self y ys
      · exact List.mem_cons_of_mem y (dedupIdx_go_subset ys (seen ++ [y]) x h)

theorem dedupIdx_subset {l : List Str} {x : Str} (h : x ∈ dedupIdx l) : x ∈ l :=
  dedupIdx_go_subset l [] x h

theorem linePred_noise_false {l : Str} (h : OCRAgent.linePred l = true) :
    OCRAgent.noiseTest l = false := by
  simp only [OCRAgent.linePred, Bool.and_eq_true, Bool.not_eq_true'] at h
  exact h.1.1.1.1.1.2

/-- C7 (amended): every string returned by `extractBookTitles` is the cleaned
form of some trimmed non-empty input line that does *not* begin
(case-insensitively) with one of the actual noise patterns `page`, `chapter`,
`table of contents`, `index`, `copyright`, `isbn`, `©`, `®`, `™` — so lines
beginning with those patterns are excluded; the pattern `p.` claimed by the
spec is not among them, and a line starting with `p.` passes the filter. -/
theorem c7_noise_prefixed_lines_excluded (text : Str) (s : Str)
    (hs : s ∈ OCRAgent.extractBookTitles text) :
    ∃ l, l ∈ OCRAgent.trimmedLines text ∧ OCRAgent.linePred l = true ∧
      OCRAgent.noiseTest l = false ∧ s = OCRAgent.cleanLine l := by
  have h1 : s ∈ ((OCRAgent.trimmedLines text).filter OCRAgent.linePred).map
      OCRAgent.cleanLine := dedupIdx_subset hs
  obtain ⟨l, hl, hcl⟩ := List.mem_map.mp h1
  exact ⟨l, List.mem_of_mem_filter hl, List.of_mem_filter hl,
    linePred_noise_false (List.of_mem_filter hl), hcl.symm⟩

theorem c7_noise_prefixed_lines_excluded_witness :
    (str "The Hobbit" ∈ OCRAgent.extractBookTitles (str "Page 42\nThe Hobbit")) ∧
    (∃ l, l ∈ OCRAgent.trimmedLines (str "Page 42\nThe Hobbit") ∧
      OCRAgent.linePred l = true ∧ OCRAgent.noiseTest l = false ∧
      str "The Hobbit" = OCRAgent.cleanLine l) :=
  ⟨by decide, c7_noise_prefixed_lines_excluded _ _ (by decide)⟩

/-- C7 (counterexample): the claim adds `p.` to the noise patterns, but the
source regex has no `p.` alternative; the line `p. 42` begins with `p.` and
is returned by `extractBookTitles` rather than excluded. -/
theorem c7_counterexample :
    strStartsWith (str "p. 42") (str "p.") = true ∧
    OCRAgent.extractBookTitles (str "p. 42") = [str "p. 42"] := by
  constructor <;> decide

/-! ## C8: the genre-extraction fallback -/

theorem strStartsWith_append : ∀ (p t : Str), strStartsWith (p ++ t) p = true
  | [], t => by cases t <;> rfl
  | d :: p', t => by
    simp only [List.cons_append, strStartsWith, Bool.and_eq_true, decide_eq_true_eq]
    exact ⟨by simp, strStartsWith_append p' t⟩

theorem strContains_append : ∀ (a p b : Str), strContains (a ++ p ++ b) p = true
  | [], p, b => by
    cases hpb : p ++ b with
    | nil =>
      have hp : p = [] := (List.append_eq_nil.mp hpb).1
      have hb : b = [] := (List.append_eq_nil.mp hpb).2
      subst hp hb
      rfl
    | cons c rest =>
      simp only [List.nil_append, hpb, strContains, Bool.or_eq_true]
      exact Or.inl (hpb ▸ strStartsWith_append p b)
  | c :: a', p, b => by
    simp only [List.cons_append, strContains, Bool.or_eq_true]
    exact Or.inr (strContains_append a' p b)

theorem strContains_of_part {p s : Str} (h : p <:+: s) : strContains s p = true := by
  obtain ⟨a, b, hab⟩ := h
  exact hab ▸ strContains_append a p b

theorem accepted_of_mapLookup_trim {s : Str}
    (h : (GenreTagger.mapLookup (trimStr (s.map jsToLower))).isSome = true) :
    GenreTagger.acceptedSubject s = true := by
  have hfind : (GenreTagger.GENRE_MAPPINGS.find? fun kv =>
      kv.1 = trimStr (s.map jsToLower)).isSome = true := by
    simpa [GenreTagger.mapLookup] using h
  obtain ⟨kv, hkvmem, hkv⟩ := List.find?_isSome.mp hfind
  have hkv' : kv.1 = trimStr (s.map jsToLower) := by simpa using hkv
  have hcont : strContains (s.map jsToLower) kv.1 = true := by
    rw [hkv']
    exact strContains_of_part (trimStr_within _)
  have hany : (GenreTagger.GENRE_MAPPINGS.any fun kv =>
      strContains (s.map jsToLower) kv.1) = true :=
    List.any_eq_true.mpr ⟨kv, hkvmem, hcont⟩
  simp [GenreTagger.acceptedSubject, hany]

theorem normalizeGenre_eq_titleCase {s : Str}
    (h : GenreTagger.acceptedSubject s = false) :
    GenreTagger.normalizeGenre s = GenreTagger.titleCaseWords s := by
  cases hml : GenreTagger.mapLookup (trimStr (s.map jsToLower)) with
  | none => simp [GenreTagger.normalizeGenre, hml]
  | some v =>
    have hacc : GenreTagger.acceptedSubject s = true :=
      accepted_of_mapLookup_trim (s := s) (by simp [hml])
    rw [hacc] at h
    exact absurd h (by simp)

theorem genres_main_fold_nil :
    ∀ (subjects : List Str),
      (∀ s ∈ subjects, GenreTagger.acceptedSubject s = false) →
      subjects.foldl
        (fun acc subject =>
          if GenreTagger.acceptedSubject subject then
            let normalized := GenreTagger.normalizeGenre subject
            if decide (normalized ≠ []) && decide (0 < normalized.length) then
              setAdd acc normalized
            else acc
          else acc) [] = []
  | [], _ => rfl
  | s :: rest, h => by
    rw [List.foldl_cons, if_neg (by simp [h s (List.mem_cons_self s rest)])]
    exact genres_main_fold_nil rest fun x hx => h x (List.mem_cons_of_mem s hx)

theorem genres_fallback_fold :
    ∀ (l acc : List Str),
      l.foldl
        (fun acc subject =>
          let normalized := GenreTagger.normalizeGenre subject
          if decide (normalized ≠ []) && decide (normalized.length < 30) then
            setAdd acc normalized
          else acc) acc =
      ((l.map GenreTagger.normalizeGenre).filter
        fun g => decide (g ≠ []) && decide (g.length < 30)).foldl setAdd acc
  | [], _ => rfl
  | s :: rest, acc => by
    simp only [List.foldl_cons, List.map_cons, List.filter_cons]
    by_cases hc : (decide (GenreTagger.normalizeGenre s ≠ []) &&
        decide ((GenreTagger.normalizeGenre s).length < 30)) = true
    · rw [if_pos hc, if_pos hc, List.foldl_cons]
      exact genres_fallback_fold rest _
    · rw [if_neg hc, if_neg hc]
      exact genres_fallback_fold rest acc

/-- C8 (amended): when no subject is accepted, `extractGenres` returns the
Title-Cased forms of those among the *first 3* raw subjects whose Title-Cased
form is non-empty and shorter than 30 characters, deduplicated in insertion
order and capped at 5 (the empty string is dropped by the source's JavaScript
truthiness guard, and the `take 3` applies before the length filter). -/
theorem c8_fallback_titlecases_first_three (subjects : List Str)
    (hacc : ∀ s ∈ subjects, GenreTagger.acceptedSubject s = false) :
    GenreTagger.extractGenres subjects =
      (insertionDedup (((subjects.take 3).map GenreTagger.titleCaseWords).filter
        fun g => decide (g ≠ []) && decide (g.length < 30))).take 5 := by
  have hmapeq : (subjects.take 3).map GenreTagger.normalizeGenre =
      (subjects.take 3).map GenreTagger.titleCaseWords :=
    List.map_congr_left fun s hs =>
      normalizeGenre_eq_titleCase (hacc s (List.take_subset 3 subjects hs))
  by_cases hnil : subjects.length = 0
  · have : subjects = [] := List.length_eq_zero.mp hnil
    subst this
    simp [GenreTagger.extractGenres, insertionDedup]
  · have hmain := genres_main_fold_nil subjects hacc
    rw [GenreTagger.extractGenres, if_neg hnil]
    simp only [hmain, List.length_nil, if_pos rfl]
    rw [genres_fallback_fold, hmapeq]
    rfl

theorem c8_fallback_titlecases_first_three_witness :
    (∀ s ∈ [str "dogs", str "", str "myths"], GenreTagger.acceptedSubject s = false) ∧
    GenreTagger.extractGenres [str "dogs", str "", str "myths"] =
      (insertionDedup ((([str "dogs", str "", str "myths"].take 3).map
          GenreTagger.titleCaseWords).filter
        fun g => decide (g ≠ []) && decide (g.length < 30))).take 5 :=
  ⟨by decide, c8_fallback_titlecases_first_three _ (by decide)⟩

/-- C8 (counterexample): on `[""]` no subject is accepted and the claim
prescribes the Title-Cased first raw subject, i.e. `[""]` (length 0 < 30),
but the source's truthiness guard drops the empty string and the code
returns `[]`. -/
theorem c8_counterexample :
    (∀ s ∈ [str ""], GenreTagger.acceptedSubject s = false) ∧
    GenreTagger.extractGenres [str ""] = [] ∧
    ([] : List Str) ≠ [GenreTagger.titleCaseWords (str "")] := by
  refine ⟨by decide, by decide, by decide⟩

/-! ## C3: the DP matrix computes the classic Levenshtein distance and the
similarity lies in [0, 1] -/

theorem lev_nil (ys : Str) : lev [] ys = ys.length := by simp [lev]

theorem lev_nil_right (xs : Str) : lev xs [] = xs.length := by
  cases xs <;> simp [lev]

theorem lev_cons_cons (x y : Char) (xs ys : Str) :
    lev (x :: xs) (y :: ys) =
      if x = y then lev xs ys
      else 1 + Nat.min (lev xs ys) (Nat.min (lev (x :: xs) ys) (lev xs (y :: ys))) := by
  simp [lev]

theorem max_succ_succ (m n : Nat) : Nat.max (m + 1) (n + 1) = Nat.max m n + 1 :=
  Nat.succ_max_succ m n

theorem nat_min_comm (a b : Nat) : Nat.min a b = Nat.min b a :=
  Nat.min_comm a b

theorem lev_le_max : ∀ (xs ys : Str), lev xs ys ≤ Nat.max xs.length ys.length
  | [], ys => by simp [lev_nil]
  | x :: xs, [] => by simp [lev_nil_right]
  | x :: xs, y :: ys => by
    rw [lev_cons_cons]
    have h1 := lev_le_max xs ys
    simp only [List.length_cons, max_succ_succ]
    by_cases hxy : x = y
    · rw [if_pos hxy]
      omega
    · rw [if_neg hxy]
      have h3 : Nat.min (lev xs ys) (Nat.min (lev (x :: xs) ys) (lev xs (y :: ys))) ≤
          lev xs ys := Nat.min_le_left _ _
      omega
termination_by xs ys => xs.length + ys.length

theorem lev_comm : ∀ (xs ys : Str), lev xs ys = lev ys xs
  | [], ys => by simp [lev_nil, lev_nil_right]
  | x :: xs, [] => by simp [lev_nil, lev_nil_right]
  | x :: xs, y :: ys => by
    rw [lev_cons_cons, lev_cons_cons]
    have I1 := lev_comm xs ys
    have I2 := lev_comm (x :: xs) ys
    have I3 := lev_comm xs (y :: ys)
    by_cases hxy : x = y
    · rw [if_pos hxy, if_pos hxy.symm, I1]
    · rw [if_neg hxy, if_neg fun h => hxy h.symm, I1, I2, I3,
        nat_min_comm (lev ys (x :: xs)) (lev (y :: ys) xs)]
termination_by xs ys => xs.length + ys.length

theorem nat_min_def' (a b : Nat) : Nat.min a b = if a ≤ b then a else b := rfl

theorem one_add_min_one_add (a b : Nat) : Nat.min (1 + a) (1 + b) = 1 + Nat.min a b := by
  simpa [Nat.add_comm] using Nat.succ_min_succ a b

theorem min9_flat (p q r s t u v w z : Nat) :
    Nat.min (Nat.min p (Nat.min s t)) (Nat.min (Nat.min q (Nat.min u v)) (Nat.min r (Nat.min w z))) =
    Nat.min (Nat.min p (Nat.min q r)) (Nat.min (Nat.min s (Nat.min u w)) (Nat.min t (Nat.min v z))) := by
  have l3 : ∀ {a b c : Nat}, a ≤ b → a ≤ c → a ≤ Nat.min b c :=
    fun h1 h2 => Nat.le_min.mpr ⟨h1, h2⟩
  have hl : ∀ a b : Nat, Nat.min a b ≤ a := Nat.min_le_left
  have hr : ∀ a b : Nat, Nat.min a b ≤ b := Nat.min_le_right
  apply Nat.le_antisymm
  · have h1 : Nat.min (Nat.min p (Nat.min s t))
        (Nat.min (Nat.min q (Nat.min u v)) (Nat.min r (Nat.min w z))) ≤ Nat.min p (Nat.min s t) :=
      hl _ _
    have h2 : Nat.min (Nat.min p (Nat.min s t))
        (Nat.min (Nat.min q (Nat.min u v)) (Nat.min r (Nat.min w z))) ≤
          Nat.min (Nat.min q (Nat.min u v)) (Nat.min r (Nat.min w z)) :=
      hr _ _
    have hup := Nat.le_trans h1 (hl _ _)
    have hus := Nat.le_trans h1 (Nat.le_trans (hr _ _) (hl _ _))
    have hut := Nat.le_trans h1 (Nat.le_trans (hr _ _) (hr _ _))
    have huq := Nat.le_trans h2 (Nat.le_trans (hl _ _) (hl _ _))
    have huu := Nat.le_trans h2 (Nat.le_trans (hl _ _) (Nat.le_trans (hr _ _) (hl _ _)))
    have huv := Nat.le_trans h2 (Nat.le_trans (hl _ _) (Nat.le_trans (hr _ _) (hr _ _)))
    have hur := Nat.le_trans h2 (Nat.le_trans (hr _ _) (hl _ _))
    have huw := Nat.le_trans h2 (Nat.le_trans (hr _ _) (Nat.le_trans (hr _ _) (hl _ _)))
    have huz := Nat.le_trans h2 (Nat.le_trans (hr _ _) (Nat.le_trans (hr _ _) (hr _ _)))
    exact l3 (l3 hup (l3 huq hur)) (l3 (l3 hus (l3 huu huw)) (l3 hut (l3 huv huz)))
  · have h1 : Nat.min (Nat.min p (Nat.min q r))
        (Nat.min (Nat.min s (Nat.min u w)) (Nat.min t (Nat.min v z))) ≤ Nat.min p (Nat.min q r) :=
      hl _ _
    have h2 : Nat.min (Nat.min p (Nat.min q r))
        (Nat.min (Nat.min s (Nat.min u w)) (Nat.min t (Nat.min v z))) ≤
          Nat.min (Nat.min s (Nat.min u w)) (Nat.min t (Nat.min v z)) :=
      hr _ _
    have hup := Nat.le_trans h1 (hl _ _)
    have huq := Nat.le_trans h1 (Nat.le_trans (hr _ _) (hl _ _))
    have hur := Nat.le_trans h1 (Nat.le_trans (hr _ _) (hr _ _))
    have hus := Nat.le_trans h2 (Nat.le_trans (hl _ _) (hl _ _))
    have huu := Nat.le_trans h2 (Nat.le_trans (hl _ _) (Nat.le_trans (hr _ _) (hl _ _)))
    have huw := Nat.le_trans h2 (Nat.le_trans (hl _ _) (Nat.le_trans (hr _ _) (hr _ _)))
    have hut := Nat.le_trans h2 (Nat.le_trans (hr _ _) (hl _ _))
    have huv := Nat.le_trans h2 (Nat.le_trans (hr _ _) (Nat.le_trans (hr _ _) (hl _ _)))
    have huz := Nat.le_trans h2 (Nat.le_trans (hr _ _) (Nat.le_trans (hr _ _) (hr _ _)))
    exact l3 (l3 hup (l3 hus hut)) (l3 (l3 huq (l3 huu huv)) (l3 hur (l3 huw huz)))

theorem min9 (p q r s t u v w z : Nat) :
    Nat.min (1 + Nat.min p (Nat.min s t))
      (Nat.min (1 + Nat.min q (Nat.min u v)) (1 + Nat.min r (Nat.min w z))) =
    Nat.min (1 + Nat.min p (Nat.min q r))
      (Nat.min (1 + Nat.min s (Nat.min u w)) (1 + Nat.min t (Nat.min v z))) := by
  rw [one_add_min_one_add (Nat.min q (Nat.min u v)) (Nat.min r (Nat.min w z)),
      one_add_min_one_add (Nat.min p (Nat.min s t)) _,
      one_add_min_one_add (Nat.min s (Nat.min u w)) (Nat.min t (Nat.min v z)),
      one_add_min_one_add (Nat.min p (Nat.min q r)) _]
  rw [min9_flat]

theorem lev_append_last : ∀ (xs ys : Str) (x y : Char),
    lev (xs ++ [x]) (ys ++ [y]) =
      if x = y then lev xs ys
      else 1 + Nat.min (lev xs ys) (Nat.min (lev (xs ++ [x]) ys) (lev xs (ys ++ [y])))
  | [], [], x, y => by
    simp only [List.nil_append]
    rw [lev_cons_cons]
  | [], b :: bs, x, y => by
    have I := lev_append_last [] bs x y
    simp only [List.nil_append] at I ⊢
    simp only [List.cons_append]
    rw [lev_cons_cons x b [] (bs ++ [y]), lev_cons_cons x b [] bs, I]
    simp only [lev_nil, lev_nil_right, List.length_append, List.length_cons,
      List.length_nil, List.length_singleton]
    by_cases hxb : x = b
    · by_cases hxy : x = y
      · subst hxb
        subst hxy
        simp
      · subst hxb
        simp only [if_neg hxy]
        simp only [nat_min_def']
        split_ifs <;> omega
    · by_cases hxy : x = y
      · subst hxy
        simp only [if_neg hxb, eq_self_iff_true, if_true]
        simp only [nat_min_def']
        split_ifs <;> omega
      · simp only [if_neg hxb, if_neg hxy]
  | a :: as, [], x, y => by
    have I := lev_append_last as [] x y
    simp only [List.nil_append] at I ⊢
    simp only [List.cons_append]
    rw [lev_cons_cons a y (as ++ [x]) [], lev_cons_cons a y as [], I]
    simp only [lev_nil, lev_nil_right, List.length_append, List.length_cons,
      List.length_nil, List.length_singleton]
    by_cases hay : a = y
    · by_cases hxy : x = y
      · subst hxy
        subst hay
        simp
      · subst hay
        simp only [if_neg hxy, eq_self_iff_true, if_true]
        simp only [nat_min_def']
        split_ifs <;> omega
    · by_cases hxy : x = y
      · subst hxy
        simp only [if_neg hay, eq_self_iff_true, if_true]
        simp only [nat_min_def']
        split_ifs <;> omega
      · simp only [if_neg hay, if_neg hxy]
  | a :: as, b :: bs, x, y => by
    have I1 := lev_append_last as bs x y
    have I2 := lev_append_last (a :: as) bs x y
    have I3 := lev_append_last as (b :: bs) x y
    simp only [List.cons_append] at I1 I2 I3 ⊢
    by_cases hab : a = b
    · subst hab
      rw [lev_cons_cons a a (as ++ [x]) (bs ++ [y]), if_pos rfl,
          lev_cons_cons a a as bs, if_pos rfl,
          lev_cons_cons a a (as ++ [x]) bs, if_pos rfl,
          lev_cons_cons a a as (bs ++ [y]), if_pos rfl]
      exact I1
    · rw [lev_cons_cons a b (as ++ [x]) (bs ++ [y]), if_neg hab,
          lev_cons_cons a b as bs, if_neg hab,
          lev_cons_cons a b (as ++ [x]) bs, if_neg hab,
          lev_cons_cons a b as (bs ++ [y]), if_neg hab]
      rw [I1, I2, I3]
      by_cases hxy : x = y
      · simp only [if_pos hxy]
      · simp only [if_neg hxy]
        congr 1
        exact min9 (lev as bs) (lev (a :: as) bs) (lev as (b :: bs))
          (lev (as ++ [x]) bs) (lev as (bs ++ [y])) (lev (a :: (as ++ [x])) bs)
          (lev (a :: as) (bs ++ [y])) (lev (as ++ [x]) (b :: bs)) (lev as (b :: (bs ++ [y])))
termination_by xs ys _ _ => xs.length + ys.length

theorem lev_rev : ∀ (xs ys : Str), lev xs.reverse ys.reverse = lev xs ys
  | [], ys => by simp [lev_nil]
  | x :: xs, [] => by simp [lev_nil_right]
  | x :: xs, y :: ys => by
    rw [List.reverse_cons, List.reverse_cons, lev_append_last]
    have I1 := lev_rev xs ys
    have I2 := lev_rev (x :: xs) ys
    have I3 := lev_rev xs (y :: ys)
    rw [List.reverse_cons] at I2 I3
    rw [lev_cons_cons]
    by_cases hxy : x = y
    · rw [if_pos hxy, if_pos hxy, I1]
    · rw [if_neg hxy, if_neg hxy, I1, I2, I3]
termination_by xs ys => xs.length + ys.length

theorem levChain_head_tail (A R : Str) (suf : Str) :
    ∃ t, levChain A R suf = lev A R :: t := by
  cases suf <;> exact ⟨_, rfl⟩

theorem rowStep_levChain : ∀ (suf A R : Str) (c : Char),
    rowStep c suf (levChain A R suf) (lev A (c :: R)) =
      (levChain A (c :: R) suf).tail
  | [], A, R, c => rfl
  | x :: xs, A, R, c => by
    have hv : (if x = c then lev A R
        else Nat.min (Nat.min (lev A R + 1) (lev A (c :: R) + 1))
          ((levChain (x :: A) R xs).headD 0 + 1)) = lev (x :: A) (c :: R) := by
      obtain ⟨t, ht⟩ := levChain_head_tail (x :: A) R xs
      rw [ht]
      simp only [List.headD_cons]
      rw [lev_cons_cons]
      by_cases hxc : x = c
      · rw [if_pos hxc, if_pos hxc]
      · rw [if_neg hxc, if_neg hxc]
        simp only [nat_min_def']
        split_ifs <;> omega
    show (if x = c then lev A R
        else Nat.min (Nat.min (lev A R + 1) (lev A (c :: R) + 1))
          ((levChain (x :: A) R xs).headD 0 + 1)) ::
      rowStep c xs (levChain (x :: A) R xs) _ = _
    rw [hv]
    rw [rowStep_levChain xs (x :: A) R c]
    obtain ⟨t, ht⟩ := levChain_head_tail (x :: A) (c :: R) xs
    show lev (x :: A) (c :: R) :: (levChain (x :: A) (c :: R) xs).tail =
      (levChain A (c :: R) (x :: xs)).tail
    rw [show levChain A (c :: R) (x :: xs) =
        lev A (c :: R) :: levChain (x :: A) (c :: R) xs from rfl]
    rw [List.tail_cons, ht, List.tail_cons]

theorem levChain_nil_right : ∀ (suf A : Str),
    levChain A [] suf = List.range' A.length (suf.length + 1)
  | [], A => by simp [levChain, lev_nil_right, List.range']
  | x :: xs, A => by
    rw [show levChain A [] (x :: xs) = lev A [] :: levChain (x :: A) [] xs from rfl]
    rw [lev_nil_right, levChain_nil_right xs (x :: A)]
    simp [List.range']

theorem levRowsAux_levChain : ∀ (cs done s1 : Str),
    levRowsAux s1 cs done.length (levChain [] done.reverse s1) =
      levChain [] (done ++ cs).reverse s1
  | [], done, s1 => by simp [levRowsAux]
  | c :: cs, done, s1 => by
    rw [show levRowsAux s1 (c :: cs) done.length (levChain [] done.reverse s1) =
        levRowsAux s1 cs (done.length + 1)
          ((done.length + 1) :: rowStep c s1 (levChain [] done.reverse s1) (done.length + 1))
      from rfl]
    have hleft : done.length + 1 = lev [] (c :: done.reverse) := by
      simp [lev_nil]
    have hrow : (done.length + 1) :: rowStep c s1 (levChain [] done.reverse s1) (done.length + 1) =
        levChain [] (c :: done.reverse) s1 := by
      obtain ⟨t, ht⟩ := levChain_head_tail [] (c :: done.reverse) s1
      rw [hleft, rowStep_levChain s1 [] done.reverse c, ht]
      simp [lev_nil]
    rw [hrow]
    have h1 : c :: done.reverse = (done ++ [c]).reverse := by simp
    have h2 : done.length + 1 = (done ++ [c]).length := by simp
    rw [h1, h2, levRowsAux_levChain cs (done ++ [c]) s1]
    congr 1
    simp

theorem levChain_getD : ∀ (suf A R : Str),
    (levChain A R suf).getD suf.length 0 = lev (suf.reverse ++ A) R
  | [], A, R => by simp [levChain]
  | x :: xs, A, R => by
    rw [show levChain A R (x :: xs) = lev A R :: levChain (x :: A) R xs from rfl]
    simp only [List.length_cons, List.getD_cons_succ]
    rw [levChain_getD xs (x :: A) R]
    congr 1
    simp

theorem levenshteinDistance_eq_lev (s1 s2 : Str) :
    DedupAgent.levenshteinDistance s1 s2 = lev s1 s2 := by
  unfold DedupAgent.levenshteinDistance
  have h0 : List.range (s1.length + 1) = levChain [] (([] : Str)).reverse s1 := by
    rw [List.reverse_nil, levChain_nil_right s1 []]
    simp [List.range_eq_range']
  rw [h0]
  have h1 := levRowsAux_levChain s2 [] s1
  simp only [List.length_nil, List.nil_append] at h1
  rw [h1]
  rw [levChain_getD s1 [] s2.reverse]
  rw [List.append_nil]
  exact lev_rev s1 s2

theorem calcSim_eq (a b : Str) :
    DedupAgent.calculateSimilarity a b =
      if Nat.max a.length b.length = 0 then 1
      else mkRat ((Nat.max a.length b.length : Int) - (lev a b : Int))
        (Nat.max a.length b.length) := by
  unfold DedupAgent.calculateSimilarity
  by_cases h : a.length > b.length
  · simp only [if_pos h]
    have hmax : Nat.max a.length b.length = a.length := Nat.max_eq_left (le_of_lt h)
    rw [levenshteinDistance_eq_lev, hmax]
  · simp only [if_neg h]
    have hmax : Nat.max a.length b.length = b.length := Nat.max_eq_right (by omega)
    rw [levenshteinDistance_eq_lev, lev_comm b a, hmax]

/-- C3: `calculateSimilarity` equals `(max(len a, len b) - d) / max(len a, len b)`
where `d` is the classic unit-cost Levenshtein distance between `a` and `b`
(the DP matrix of the source is proved equal to the textbook recursion), with
the both-empty case giving 1; consequently the result lies in [0, 1]. -/
theorem c3_similarity_is_levenshtein_ratio (a b : Str) :
    DedupAgent.calculateSimilarity a b =
      (if Nat.max a.length b.length = 0 then (1 : ℚ)
       else ((Nat.max a.length b.length : ℚ) - (lev a b : ℚ)) /
         (Nat.max a.length b.length : ℚ)) ∧
    0 ≤ DedupAgent.calculateSimilarity a b ∧ DedupAgent.calculateSimilarity a b ≤ 1 := by
  have he := calcSim_eq a b
  by_cases h0 : Nat.max a.length b.length = 0
  · rw [he, if_pos h0]
    exact ⟨by rw [if_pos h0], by norm_num, by norm_num⟩
  · have hM : 0 < Nat.max a.length b.length := Nat.pos_of_ne_zero h0
    have hd : lev a b ≤ Nat.max a.length b.length := lev_le_max a b
    have hQd : (lev a b : ℚ) ≤ (Nat.max a.length b.length : ℚ) := by exact_mod_cast hd
    have hQM : (0 : ℚ) < (Nat.max a.length b.length : ℚ) := by exact_mod_cast hM
    have hdiv : DedupAgent.calculateSimilarity a b =
        ((Nat.max a.length b.length : ℚ) - (lev a b : ℚ)) /
          (Nat.max a.length b.length : ℚ) := by
      rw [he, if_neg h0, Rat.mkRat_eq_div]
      push_cast
      ring
    refine ⟨by rw [hdiv, if_neg h0], ?_, ?_⟩
    · rw [hdiv]
      exact div_nonneg (by linarith) (le_of_lt hQM)
    · rw [hdiv]
      rw [div_le_one hQM]
      linarith

end BookApp
